import Mathlib

/-!
Shallow embedding of the core of `src/app.py` (Environmental Policy Impact
Monitor): the Climate Policy Database normalizer (`extract_policies_cpd`),
the wide-to-long emissions reshaping of tab 1, the impact summary, the
policy-overlay filtering, and the Federal Register JSON adapter
(`extract_environment_policies`).

Conventions of the embedding:
* pandas floating-point cells are modelled over `ℚ`; a missing value (`NaN`)
  is `Option.none`.  `pd.to_numeric(..., errors="coerce")` becomes a decimal
  parser returning `Option ℚ`.
* network/page responses are an explicit input list: `none` models a fetch
  or parse failure (an exception caught by the `try`), `some v` a decoded
  body.
* the dynamic typing of the Federal Register item processing is modelled
  with a JSON value type and `Except PyErr`: the Python runtime errors
  (`AttributeError` for `.get` on a non-dict, `TypeError` for iterating a
  non-iterable or joining non-strings) become `.error`.
-/

/-- Digits of a numeral, folded to a natural number (helper for the
decimal parser and for `astype(int)` on all-digit year columns). -/
def digitsVal (cs : List Char) : Nat :=
  cs.foldl (fun acc c => 10 * acc + (c.toNat - 48)) 0

/-! ## String helpers (Python `str` operations used by the source) -/

/-- Tests that `b` starts with the character sequence `a`. -/
def prefixSeq : List Char → List Char → Bool
  | [], _ => true
  | _ :: _, [] => false
  | a :: as, b :: bs => a == b && prefixSeq as bs

/-- Contiguous-subsequence test: Python's `needle in hay` on strings. -/
def containsSeq (needle : List Char) : List Char → Bool
  | [] => needle.isEmpty
  | b :: bs => prefixSeq needle (b :: bs) || containsSeq needle bs

/-- Python `s.lower()` (ASCII case folding, which covers this source). -/
def lowerChars (s : String) : List Char := s.toList.map Char.toLower

/-- Python `needle in hay.lower()` for the keyword scan; also used (with a
raw needle) for the case-insensitive `str.contains` of the country filter. -/
def strContainsCI (hay needle : String) : Bool :=
  containsSeq (lowerChars needle) (lowerChars hay)

/-- Python `s.strip()`: remove leading and trailing whitespace. -/
def trimChars (s : String) : String :=
  ⟨((s.toList.dropWhile Char.isWhitespace).reverse.dropWhile Char.isWhitespace).reverse⟩

/-- Python `s[:4]`. -/
def take4 (s : String) : String := ⟨s.toList.take 4⟩

/-- Python `str.isdigit`: non-empty and all digits (identifies year columns
on line 77). -/
def isDigitName (s : String) : Bool := !s.toList.isEmpty && s.toList.all Char.isDigit

/-- Unsigned decimal parser: integer digits with an optional fractional
part, at least one digit overall.  Models the grammar of numbers accepted
by `pd.to_numeric` on the string cells that occur here. -/
def parseUnsigned (cs : List Char) : Option ℚ :=
  let intPart := cs.takeWhile Char.isDigit
  let rest := cs.dropWhile Char.isDigit
  match rest with
  | [] =>
    if intPart.isEmpty then none else some (digitsVal intPart : ℚ)
  | '.' :: frac =>
    if frac.all Char.isDigit && !(intPart.isEmpty && frac.isEmpty) then
      some ((digitsVal intPart : ℚ) + (digitsVal frac : ℚ) / ((10 : ℚ) ^ frac.length))
    else none
  | _ => none

/-- Model of `pd.to_numeric(s, errors="coerce")` on a string cell: optional sign and
surrounding whitespace, decimal digits with optional fraction; anything
else coerces to `NaN` (modelled as `none`). -/
def toNumeric (s : String) : Option ℚ :=
  match (trimChars s).toList with
  | '-' :: cs => (parseUnsigned cs).map (fun q => -q)
  | '+' :: cs => parseUnsigned cs
  | cs => parseUnsigned cs

/-- The `pandas` mean of a series of values: `NaN` (here `none`) when the
series is empty, otherwise the arithmetic mean. -/
def seriesMean (l : List ℚ) : Option ℚ :=
  if l = [] then none else some (l.sum / (l.length : ℚ))

/-- An emissions point of the plotted series: `(Year, Emissions)`. -/
abbrev EmPoint := ℤ × ℚ

/-- Line 161: `plot_df[plot_df["Year"] < policy_year]["Emissions"].mean()`. -/
def avgBefore (s : List EmPoint) (y : ℤ) : Option ℚ :=
  seriesMean ((s.filter (fun p => decide (p.1 < y))).map Prod.snd)

/-- Line 162: `plot_df[plot_df["Year"] >= policy_year]["Emissions"].mean()`. -/
def avgAfter (s : List EmPoint) (y : ℤ) : Option ℚ :=
  seriesMean ((s.filter (fun p => decide (y ≤ p.1))).map Prod.snd)

/-- Result of the percent-change metric: either a computed value (which is
`NaN`, i.e. `none`, when `avg_after` is `NaN`) or the `"N/A"` sentinel. -/
inductive PctChange where
  | value : Option ℚ → PctChange
  | na : PctChange
deriving DecidableEq, Repr

/-- Lines 170-173: `((after - before) / before) * 100` when `before > 0`
(`NaN > 0` is `False` in Python, so an undefined `before` also yields the
sentinel), else the string `"N/A"`. -/
def percentChange (before after : Option ℚ) : PctChange :=
  match before with
  | some b => if 0 < b then .value (after.map (fun a => (a - b) / b * 100)) else .na
  | none => .na

/-- The impact summary of lines 161-173 for a series and a policy year. -/
def impactSummary (s : List EmPoint) (y : ℤ) : Option ℚ × Option ℚ × PctChange :=
  (avgBefore s y, avgAfter s y, percentChange (avgBefore s y) (avgAfter s y))

example : impactSummary [((2010 : ℤ), (100 : ℚ)), (2011, 120), (2012, 90)] 2011 =
    (some 100, some 105, .value (some 5)) := by
  simp [impactSummary, avgBefore, avgAfter, percentChange, seriesMean, List.filter]
  norm_num

/-! ## Climate Policy Database scraper/normalizer (`extract_policies_cpd`,
lines 28-63) -/

/-- A cell of a normalized policy table: a string, a number (after
`pd.to_numeric`), or missing (`NaN`). -/
inductive Cell where
  | str : String → Cell
  | num : ℚ → Cell
  | na : Cell
deriving DecidableEq, Repr

/-- One raw page scraped by `pd.read_html(url)[0]`: column names and rows of
string-or-missing cells. -/
structure CpdTable where
  cols : List String
  rows : List (List (Option String))
deriving DecidableEq, Repr

/-- The normalized policy table returned by `extract_policies_cpd` (the empty
`pd.DataFrame()` is `⟨[], []⟩`). -/
structure NormTable where
  cols : List String
  rows : List (List Cell)
deriving DecidableEq, Repr

/-- Lines 31-37: the page loop. The input list gives, per page index, the
outcome of `pd.read_html` (`none` = any exception). The `except: break`
ends the loop at the first failure, keeping the pages accumulated so far. -/
def cpdFetchLoop : List (Option CpdTable) → List CpdTable
  | [] => []
  | none :: _ => []
  | some d :: rest => d :: cpdFetchLoop rest

/-- Model of `pd.concat(all_dfs, ignore_index=True)`: union of the pages' columns in
order of first appearance. -/
def unionCols (ps : List (List String)) : List String :=
  ps.foldl (fun acc cs => acc ++ cs.filter (fun c => !acc.contains c)) []

/-- Align one page row to the concatenated column list; columns the page does
not have become `NaN`. -/
def alignRow (cols rowCols : List String) (r : List (Option String)) : List (Option String) :=
  cols.map (fun c => (((rowCols.zip r).lookup c).getD none))

/-- Line 42: concatenate all fetched pages into one table. -/
def concatPages (ps : List CpdTable) : CpdTable :=
  let cols := unionCols (ps.map (·.cols))
  ⟨cols, ps.foldr (fun p acc => p.rows.map (alignRow cols p.cols) ++ acc) []⟩

/-- The keyword list of line 48. -/
def yearKeywords : List String := ["year", "start", "date", "adopt"]

/-- Line 48: `any(k in col.lower() for k in [...])`. -/
def colQualifies (c : String) : Bool :=
  yearKeywords.any (fun k => strContainsCI c k)

/-- Lines 46-50: first column (in existing order) whose lowercased name
contains a keyword. -/
def findYearCol (cols : List String) : Option String :=
  cols.find? colQualifies

/-- Lines 55-58: `pd.to_numeric(cell.astype(str).str[:4], errors="coerce")`.
`astype(str)` renders a missing cell as the string `"nan"`. -/
def yearCell (c : Option String) : Cell :=
  match toNumeric (take4 (c.getD "nan")) with
  | some q => Cell.num q
  | none => Cell.na

/-- Lines 60-63: rename the detected column to `implementation_year` and a
`Policy` column to `policy_name`. -/
def renameCol (yearCol c : String) : String :=
  if c = yearCol then "implementation_year"
  else if c = "Policy" then "policy_name" else c

/-- Lines 43-63 applied to the concatenated table: strip column names, detect
the year column, coerce it to a numeric year, rename. Returns the empty
frame when no year-like column exists. -/
def normalizeTable (t : CpdTable) : NormTable :=
  let cols := t.cols.map trimChars
  match findYearCol cols with
  | none => ⟨[], []⟩
  | some yc =>
    ⟨cols.map (renameCol yc),
     t.rows.map (fun r => (cols.zip r).map (fun p =>
       if p.1 = yc then yearCell p.2
       else match p.2 with
            | some s => Cell.str s
            | none => Cell.na))⟩

/-- The function `extract_policies_cpd` end to end: fetch pages until the first failure,
return the empty frame if none succeeded, else normalize the concatenation. -/
def extract_policies_cpd (pages : List (Option CpdTable)) : NormTable :=
  let all_dfs := cpdFetchLoop pages
  if all_dfs.isEmpty then ⟨[], []⟩
  else normalizeTable (concatPages all_dfs)

/-- Value of row `i` at the (first) column named `c` of a normalized table
(`NaN` when out of range). -/
def getField (t : NormTable) (i : Nat) (c : String) : Cell :=
  match t.rows.get? i with
  | none => Cell.na
  | some r => ((t.cols.zip r).lookup c).getD Cell.na

example : extract_policies_cpd
    [some ⟨["Policy", "AdoptionDate", "Region"],
           [[some "Net-Zero Act", some "2020-05-01", some "EU"]]⟩] =
    ⟨["policy_name", "implementation_year", "Region"],
     [[Cell.str "Net-Zero Act", Cell.num 2020, Cell.str "EU"]]⟩ := by rfl

/-! ## Emissions reshaping (tab 1, lines 75-111) -/

/-- One row of the wide emissions CSV.  The melt of line 100 keeps
`ISO, Country, Sector, Gas, Unit` as `id_vars`, so they are explicit
fields here; every other column appears in `cells` as a
(column name, raw cell) pair, aligned with the table's column list. -/
structure WideRow where
  iso : Option String
  country : Option String
  sector : Option String
  gas : Option String
  unit : Option String
  cells : List (String × Option String)
deriving DecidableEq, Repr

/-- The wide emissions table: the non-id column names (in order) and rows. -/
structure WideTable where
  cols : List String
  rows : List WideRow
deriving DecidableEq, Repr

/-- A melted row before the casts of lines 107-108: `Year` is still the
column-name string, `Emissions` the raw cell. -/
structure MeltRow where
  iso : Option String
  country : Option String
  sector : Option String
  gas : Option String
  unit : Option String
  year : String
  value : Option String
deriving DecidableEq, Repr

/-- A long row after `Year.astype(int)` and
`pd.to_numeric(Emissions, errors="coerce")`. -/
structure LongRow where
  iso : Option String
  country : Option String
  sector : Option String
  gas : Option String
  unit : Option String
  year : ℤ
  emissions : Option ℚ
deriving DecidableEq, Repr

/-- The cell of row `r` in column `c` (`NaN` when the row lacks it). -/
def cellAt (r : WideRow) (c : String) : Option String :=
  ((r.cells.lookup c).getD none)

/-- Lines 98-105: filter the table to one country (`NaN` country never
equals a string, so such rows drop out), then melt every year column
(`value_vars = [c for c in df.columns if c.isdigit()]`, line 77) into
`(Year, Emissions)` pairs.  pandas `melt` stacks one block per value
column, in column order. -/
def meltCountry (t : WideTable) (country : String) : List MeltRow :=
  let rows := t.rows.filter (fun r => r.country == some country)
  (t.cols.filter isDigitName).foldr
    (fun c acc =>
      rows.map (fun r => ⟨r.iso, r.country, r.sector, r.gas, r.unit, c, cellAt r c⟩) ++ acc)
    []

/-- Lines 107-108: `Year.astype(int)` (the name is all digits, so the cast
is total) and `to_numeric(Emissions, errors="coerce")`. -/
def castLong (m : MeltRow) : LongRow :=
  ⟨m.iso, m.country, m.sector, m.gas, m.unit, (digitsVal m.year.toList : ℤ),
   m.value.bind toNumeric⟩

/-- Line 109 `dropna`: a long row survives only if no field is missing. -/
def notNull (r : LongRow) : Bool :=
  r.iso.isSome && r.country.isSome && r.sector.isSome && r.gas.isSome &&
  r.unit.isSome && r.emissions.isSome

/-- Lines 100-109: melt, cast, drop rows with any missing field. -/
def longClean (t : WideTable) (country : String) : List LongRow :=
  ((meltCountry t country).map castLong).filter notNull

/-- Line 111: filter to the selected sector and sort ascending by `Year`. -/
def plotSeries (t : WideTable) (country sector : String) : List LongRow :=
  List.mergeSort ((longClean t country).filter (fun r => r.sector == some sector))
    (fun a b => decide (a.year ≤ b.year))

/-! ## Policy overlay filtering (tab 1, lines 124-133) -/

/-- A normalized policy record as the overlay reads it: the
`implementation_year` cell (a float, `none` = `NaN`), the `policy_name`
cell, and the country cell when that column exists. -/
structure PolicyRec where
  policy_name : Option String
  implementation_year : Option ℚ
  country : Option String
deriving DecidableEq, Repr

/-- Line 125: `policy_df[policy_df["implementation_year"] == policy_year]`
(`NaN == y` is `False`). -/
def filterByYear (y : ℤ) (rs : List PolicyRec) : List PolicyRec :=
  rs.filter (fun r => r.implementation_year == some (y : ℚ))

/-- Lines 128-131: `str.contains(country, case=False, na=False)` —
case-insensitive substring containment, `False` on a missing cell. -/
def filterByCountry (country : String) (rs : List PolicyRec) : List PolicyRec :=
  rs.filter (fun r => match r.country with
    | some s => strContainsCI s country
    | none => false)

/-- The matched set before truncation: year filter, then the country filter
when a `Country` column exists. -/
def matchedPolicies (y : ℤ) (country : String) (hasCountryCol : Bool)
    (rs : List PolicyRec) : List PolicyRec :=
  if hasCountryCol then filterByCountry country (filterByYear y rs)
  else filterByYear y rs

/-- Line 133: `policy_year_df.head(5)`. -/
def displayPolicies (y : ℤ) (country : String) (hasCountryCol : Bool)
    (rs : List PolicyRec) : List PolicyRec :=
  (matchedPolicies y country hasCountryCol rs).take 5

/-! ## Federal Register JSON adapter (`extract_environment_policies`,
lines 182-223) -/

/-- A decoded JSON value, the shape `response.json()` can return. -/
inductive JVal where
  | null : JVal
  | bool : Bool → JVal
  | num : ℚ → JVal
  | str : String → JVal
  | arr : List JVal → JVal
  | obj : List (String × JVal) → JVal
deriving Repr

/-- The Python runtime errors the item-processing can raise (they are NOT
caught by the `try` of lines 196-201, which only guards the request and
the JSON decode). -/
inductive PyErr where
  | attributeError : PyErr
  | typeError : PyErr
deriving DecidableEq, Repr

/-- Python `v.get(key, dflt)`: `AttributeError` when `v` is not a dict. -/
def pyGetD (v : JVal) (key : String) (dflt : JVal) : Except PyErr JVal :=
  match v with
  | .obj kvs => .ok ((kvs.lookup key).getD dflt)
  | _ => .error .attributeError

/-- Python `v.get(key)` (default `None`). -/
def pyGet (v : JVal) (key : String) : Except PyErr JVal :=
  pyGetD v key .null

/-- Python truthiness of a JSON value (`if not results: break`). -/
def pyFalsy : JVal → Bool
  | .null => true
  | .bool b => !b
  | .num q => q == 0
  | .str s => s.isEmpty
  | .arr xs => xs.isEmpty
  | .obj kvs => kvs.isEmpty

/-- Python `for x in v`: lists iterate elements, strings iterate their
characters, dicts iterate their keys; anything else is a `TypeError`. -/
def pyIter : JVal → Except PyErr (List JVal)
  | .arr xs => .ok xs
  | .str s => .ok (s.toList.map (fun c => .str ⟨[c]⟩))
  | .obj kvs => .ok (kvs.map (fun p => .str p.1))
  | _ => .error .typeError

/-- Line 211: `isinstance(agency, dict) and "name" in agency`. -/
def isNamedObj : JVal → Bool
  | .obj kvs => (kvs.lookup "name").isSome
  | _ => false

/-- The list comprehension of lines 209-212: keep the dict entries bearing
a `"name"` key and take their `"name"` values (the guard makes the lookup
total). -/
def compNames (entries : List JVal) : List JVal :=
  (entries.filter isNamedObj).map (fun a =>
    match a with
    | .obj kvs => (kvs.lookup "name").getD .null
    | _ => .null)

/-- Python `", ".join(...)` demands every element be a `str`, else `TypeError`. -/
def joinStrs : List JVal → Except PyErr (List String)
  | [] => .ok []
  | .str s :: rest => (joinStrs rest).map (fun ss => s :: ss)
  | _ :: _ => .error .typeError

/-- One normalized Federal Register record (the dict of lines 214-221). -/
structure RegRecord where
  policy_name : JVal
  policy_type : JVal
  implementation_year : ℤ
  agency : String
  source : String
  source_url : JVal
deriving Repr

/-- Lines 207-221 for one raw item: collect agency names, then build the
record.  `item.get` raises `AttributeError` on a non-dict item; iterating
a non-iterable `agencies` value raises `TypeError`; joining non-string
names raises `TypeError`. -/
def processItem (year : ℤ) (item : JVal) : Except PyErr RegRecord := do
  let agencies ← pyGetD item "agencies" (.arr [])
  let entries ← pyIter agencies
  let names := compNames entries
  let title ← pyGet item "title"
  let ptype ← pyGet item "type"
  let agencyField ←
    if names.isEmpty then pure "N/A"
    else (joinStrs names).map (String.intercalate ", ")
  let url ← pyGet item "html_url"
  pure ⟨title, ptype, year, agencyField, "US Federal Register", url⟩

/-- The `for item in results` loop, appending records in order; the first
item error aborts the whole call (nothing catches it). -/
def processItems (year : ℤ) : List JVal → Except PyErr (List RegRecord)
  | [] => .ok []
  | item :: rest => do
    let r ← processItem year item
    let rs ← processItems year rest
    pure (r :: rs)

/-- The function `extract_environment_policies`: the page loop of lines 187-223.  The
input list gives, per page (1-based, `max_pages` = its length), the outcome
of request + `response.json()` (`none` = caught exception, `break`).  A
falsy/absent `results` also breaks; `data.get` on a non-dict body and the
item-processing errors propagate to the caller. -/
def extract_environment_policies (year : ℤ) :
    List (Option JVal) → Except PyErr (List RegRecord)
  | [] => .ok []
  | none :: _ => .ok []
  | some body :: rest => do
    let results ← pyGetD body "results" (.arr [])
    if pyFalsy results then pure []
    else do
      let items ← pyIter results
      let recs ← processItems year items
      let more ← extract_environment_policies year rest
      pure (recs ++ more)

/-! ## Theorems -/

/-- C1: the impact summary takes `avg_before` as the mean of emissions at
years `< policy_year` and `avg_after` as the mean at years `≥ policy_year`,
an empty group giving an undefined (`NaN`) mean; `percent_change` is
`(avg_after - avg_before) / avg_before * 100` when `avg_before > 0` and the
`"N/A"` sentinel otherwise (the function is total, so it never raises); the
series `{2010:100, 2011:120, 2012:90}` with policy year 2011 gives
`avg_before = 100`, `avg_after = 105`, `percent_change = 5`. -/
theorem impact_summary_spec (s : List EmPoint) (y : ℤ) :
    ((s.filter (fun p => decide (p.1 < y))) = [] → avgBefore s y = none) ∧
    ((s.filter (fun p => decide (y ≤ p.1))) = [] → avgAfter s y = none) ∧
    (∀ b, avgBefore s y = some b →
      b = ((s.filter (fun p => decide (p.1 < y))).map Prod.snd).sum /
          (((s.filter (fun p => decide (p.1 < y))).map Prod.snd).length : ℚ)) ∧
    (∀ b, avgBefore s y = some b → 0 < b →
      percentChange (avgBefore s y) (avgAfter s y)
        = .value ((avgAfter s y).map (fun a => (a - b) / b * 100))) ∧
    (percentChange (avgBefore s y) (avgAfter s y) = .na ↔
      ¬ ∃ b, avgBefore s y = some b ∧ 0 < b) ∧
    impactSummary [((2010 : ℤ), (100 : ℚ)), (2011, 120), (2012, 90)] 2011
      = (some 100, some 105, .value (some 5)) := by
  refine ⟨fun h => ?_, fun h => ?_, fun b hb => ?_, fun b hb h0 => ?_, ?_, ?_⟩
  · simp [avgBefore, seriesMean, h]
  · simp [avgAfter, seriesMean, h]
  · unfold avgBefore seriesMean at hb
    by_cases hl : (s.filter (fun p => decide (p.1 < y))).map Prod.snd = []
    · rw [if_pos hl] at hb; exact absurd hb (by simp)
    · rw [if_neg hl] at hb; exact (Option.some_inj.mp hb).symm
  · rw [hb]; simp [percentChange, h0]
  · cases hB : avgBefore s y with
    | none => simp [percentChange, hB]
    | some b =>
      by_cases h0 : 0 < b
      · simp [percentChange, hB, h0]
      · simp [percentChange, hB, h0]
  · simp [impactSummary, avgBefore, avgAfter, percentChange, seriesMean, List.filter]
    norm_num

/-- Witness for `impact_summary_spec` at the scenario input. -/
theorem impact_summary_spec_witness :
    percentChange (avgBefore [((2010 : ℤ), (100 : ℚ)), (2011, 120), (2012, 90)] 2011)
        (avgAfter [((2010 : ℤ), (100 : ℚ)), (2011, 120), (2012, 90)] 2011)
      = .value ((avgAfter [((2010 : ℤ), (100 : ℚ)), (2011, 120), (2012, 90)] 2011).map
          (fun a => (a - 100) / 100 * 100)) :=
  (impact_summary_spec [((2010 : ℤ), (100 : ℚ)), (2011, 120), (2012, 90)] 2011).2.2.2.1 100
    (by simp [avgBefore, seriesMean, List.filter])
    (by norm_num)

/-- C6: the year filter keeps exactly the records whose
`implementation_year` equals the policy year, it is idempotent, and the
displayed match set is the first at-most-5 records (in table order) of the
filtered set. -/
theorem policy_filter_spec (y : ℤ) (rs : List PolicyRec) (country : String)
    (hasCountryCol : Bool) :
    (∀ r ∈ filterByYear y rs, r.implementation_year = some (y : ℚ)) ∧
    filterByYear y (filterByYear y rs) = filterByYear y rs ∧
    (displayPolicies y country hasCountryCol rs).length ≤ 5 ∧
    displayPolicies y country hasCountryCol rs
        ++ (matchedPolicies y country hasCountryCol rs).drop 5
      = matchedPolicies y country hasCountryCol rs := by
  refine ⟨fun r hr => ?_, ?_, ?_, ?_⟩
  · exact eq_of_beq (List.mem_filter.mp hr).2
  · simp [filterByYear, List.filter_filter]
  · exact List.length_take_le 5 (matchedPolicies y country hasCountryCol rs)
  · exact List.take_append_drop 5 (matchedPolicies y country hasCountryCol rs)

/-- Witness for `policy_filter_spec` at a concrete record set. -/
theorem policy_filter_spec_witness :
    (⟨some "Act A", some 2015, some "France"⟩ : PolicyRec).implementation_year
      = some ((2015 : ℤ) : ℚ) :=
  (policy_filter_spec 2015
      [⟨some "Act A", some 2015, some "France"⟩, ⟨some "Act B", none, none⟩] "france" true).1
    ⟨some "Act A", some 2015, some "France"⟩
    (by simp [filterByYear])

/-- The first qualifying column wins: scanning in order, `find?` returns
the first element satisfying the predicate. -/
theorem findYearCol_first (l1 : List String) (c : String) (l2 : List String)
    (h1 : ∀ b ∈ l1, colQualifies b = false) (hc : colQualifies c = true) :
    findYearCol (l1 ++ c :: l2) = some c := by
  induction l1 with
  | nil => simp [findYearCol, List.find?_cons, hc]
  | cons a t ih =>
    have ha : colQualifies a = false := h1 a (by simp)
    simp only [List.cons_append, findYearCol, List.find?_cons, ha]
    exact ih (fun b hb => h1 b (by simp [hb]))

/-- C3: the normalizer takes as year column the first column (in existing
order, names trimmed) whose lowercased name contains one of the substrings
`"year", "start", "date", "adopt"`; when no column qualifies it returns the
empty frame; and the scenario with columns
`["Policy", "AdoptionDate", "Region"]` and row
`("Net-Zero Act", "2020-05-01", "EU")` normalizes to
`implementation_year = 2020`, `policy_name = "Net-Zero Act"`. -/
theorem year_column_detection_spec :
    (∀ (l1 l2 : List String) (c : String),
      (∀ b ∈ l1, colQualifies b = false) → colQualifies c = true →
      findYearCol (l1 ++ c :: l2) = some c) ∧
    (colQualifies = fun c =>
      (["year", "start", "date", "adopt"]).any (fun k => strContainsCI c k)) ∧
    (∀ t : CpdTable, findYearCol (t.cols.map trimChars) = none →
      normalizeTable t = ⟨[], []⟩) ∧
    getField (extract_policies_cpd
        [some ⟨["Policy", "AdoptionDate", "Region"],
               [[some "Net-Zero Act", some "2020-05-01", some "EU"]]⟩])
        0 "implementation_year" = Cell.num 2020 ∧
    getField (extract_policies_cpd
        [some ⟨["Policy", "AdoptionDate", "Region"],
               [[some "Net-Zero Act", some "2020-05-01", some "EU"]]⟩])
        0 "policy_name" = Cell.str "Net-Zero Act" := by
  refine ⟨fun l1 l2 c h1 hc => findYearCol_first l1 c l2 h1 hc, rfl, fun t h => ?_, ?_, ?_⟩
  · simp [normalizeTable, h]
  · rfl
  · rfl

/-- Witness for `year_column_detection_spec`: the detection applied at the
scenario's column list. -/
theorem year_column_detection_spec_witness :
    findYearCol (["Policy"] ++ "AdoptionDate" :: ["Region"]) = some "AdoptionDate" :=
  (year_column_detection_spec).1 ["Policy"] ["Region"] "AdoptionDate"
    (by decide) (by decide)

/-- C2 counterexample: a harvested page whose year column holds an
unparseable value yields a NON-empty normalized set containing a record
with a null (`NaN`) `implementation_year` — the code keeps such rows. -/
theorem normalize_retains_null_year_cex :
    (extract_policies_cpd [some ⟨["Year"], [[some "abcd"]]⟩]).rows ≠ [] ∧
    getField (extract_policies_cpd [some ⟨["Year"], [[some "abcd"]]⟩])
        0 "implementation_year" = Cell.na := by
  constructor
  · decide
  · rfl

/-- C2 (amended): normalization yields the empty frame when no year-like
column is detected; when one is detected, EVERY input row is retained — a
row whose year value fails to parse keeps a null `implementation_year`
rather than being dropped. -/
theorem normalize_null_year_amended (t : CpdTable) :
    (findYearCol (t.cols.map trimChars) = none → normalizeTable t = ⟨[], []⟩) ∧
    (∀ yc, findYearCol (t.cols.map trimChars) = some yc →
      (normalizeTable t).rows.length = t.rows.length ∧
      ∀ r ∈ t.rows,
        ((t.cols.map trimChars).zip r).map (fun p =>
            if p.1 = yc then yearCell p.2
            else match p.2 with | some s => Cell.str s | none => Cell.na)
          ∈ (normalizeTable t).rows) := by
  refine ⟨fun h => by simp [normalizeTable, h], fun yc h => ?_⟩
  constructor
  · simp [normalizeTable, h]
  · intro r hr
    simp only [normalizeTable, h]
    exact List.mem_map_of_mem _ hr

/-- Witness for `normalize_null_year_amended` at the unparseable-year page. -/
theorem normalize_null_year_amended_witness :
    (normalizeTable ⟨["Year"], [[some "abcd"]]⟩).rows.length
      = ([[some "abcd"]] : List (List (Option String))).length :=
  ((normalize_null_year_amended ⟨["Year"], [[some "abcd"]]⟩).2 "Year" (by decide)).1

/-- Membership in a fold that appends a block per element. -/
theorem mem_foldr_append {α β : Type} (f : α → List β) (L : List α) (x : β) :
    x ∈ L.foldr (fun c acc => f c ++ acc) [] ↔ ∃ c ∈ L, x ∈ f c := by
  induction L with
  | nil => simp
  | cons a t ih => simp [ih]

/-- C4: melt treats exactly the all-digit-named columns as year columns
(every melted row's `Year` is such a name, and every digit column is melted
for every surviving row of the selected country); every surviving long row
has a parsed numeric `Emissions` (unparseable rows are dropped, not
zero-filled: the survivors are a sublist of the unmodified casts); and the
plotted series is non-decreasing in `Year`. -/
theorem reshape_spec (t : WideTable) (country sector : String) :
    (∀ m ∈ meltCountry t country, isDigitName m.year = true) ∧
    (∀ c ∈ t.cols, isDigitName c = true →
      ∀ r ∈ t.rows.filter (fun r => r.country == some country),
        (⟨r.iso, r.country, r.sector, r.gas, r.unit, c, cellAt r c⟩ : MeltRow)
          ∈ meltCountry t country) ∧
    (∀ p ∈ longClean t country, p.emissions.isSome = true) ∧
    (longClean t country).Sublist ((meltCountry t country).map castLong) ∧
    (plotSeries t country sector).Pairwise (fun a b => a.year ≤ b.year) := by
  refine ⟨fun m hm => ?_, fun c hc hdig r hr => ?_, fun p hp => ?_, ?_, ?_⟩
  · unfold meltCountry at hm
    rw [mem_foldr_append] at hm
    obtain ⟨c, hc, hmc⟩ := hm
    obtain ⟨r, _, rfl⟩ := List.mem_map.mp hmc
    exact (List.mem_filter.mp hc).2
  · unfold meltCountry
    rw [mem_foldr_append]
    exact ⟨c, List.mem_filter.mpr ⟨hc, hdig⟩, List.mem_map_of_mem _ hr⟩
  · have h := (List.mem_filter.mp hp).2
    unfold notNull at h
    simp only [Bool.and_eq_true] at h
    exact h.2
  · exact List.filter_sublist _
  · have hs := @List.sorted_mergeSort LongRow (fun a b => decide (a.year ≤ b.year))
      (by intro a b c hab hbc; simp only [decide_eq_true_eq] at *; omega)
      (by intro a b; simp only [Bool.or_eq_true, decide_eq_true_eq]; omega)
      ((longClean t country).filter (fun r => r.sector == some sector))
    exact hs.imp (fun h => by simpa using h)

/-- Witness for `reshape_spec`: conjunct 2 applied at a one-column table. -/
theorem reshape_spec_witness :
    (⟨some "FRA", some "France", some "Energy", some "CO2", some "Mt", "2010",
        some "3.5"⟩ : MeltRow)
      ∈ meltCountry
          ⟨["2010"],
           [⟨some "FRA", some "France", some "Energy", some "CO2", some "Mt",
             [("2010", some "3.5")]⟩]⟩ "France" :=
  (reshape_spec
      ⟨["2010"],
       [⟨some "FRA", some "France", some "Energy", some "CO2", some "Mt",
         [("2010", some "3.5")]⟩]⟩ "France" "Energy").2.1
    "2010" (by decide) (by decide)
    ⟨some "FRA", some "France", some "Energy", some "CO2", some "Mt",
     [("2010", some "3.5")]⟩ (by decide)

/-- C10: the `dropna` of line 109 applies to every column: a surviving long
row has ALL of ISO, Country, Sector, Gas, Unit and Emissions present, and a
row with a parseable `Emissions` but a missing `Gas` identifier is excluded
from the series. -/
theorem dropna_all_columns_spec (t : WideTable) (country : String) :
    (∀ p ∈ longClean t country,
      p.iso.isSome = true ∧ p.country.isSome = true ∧ p.sector.isSome = true ∧
      p.gas.isSome = true ∧ p.unit.isSome = true ∧ p.emissions.isSome = true) ∧
    longClean
      ⟨["2010"],
       [⟨some "ISO", some "X", some "Energy", none, some "Mt",
         [("2010", some "100")]⟩]⟩ "X" = [] := by
  refine ⟨fun p hp => ?_, by rfl⟩
  have h := (List.mem_filter.mp hp).2
  unfold notNull at h
  simp only [Bool.and_eq_true] at h
  exact ⟨h.1.1.1.1.1, h.1.1.1.1.2, h.1.1.1.2, h.1.1.2, h.1.2, h.2⟩

/-- Witness for `dropna_all_columns_spec` at a surviving concrete row. -/
theorem dropna_all_columns_spec_witness :
    ((⟨some "FRA", some "France", some "Energy", some "CO2", some "Mt", 2010,
        some 35⟩ : LongRow)).gas.isSome = true :=
  ((dropna_all_columns_spec
      ⟨["2010"],
       [⟨some "FRA", some "France", some "Energy", some "CO2", some "Mt",
         [("2010", some "35")]⟩]⟩ "France").1
    ⟨some "FRA", some "France", some "Energy", some "CO2", some "Mt", 2010, some 35⟩
    (by decide)).2.2.2.1

/-- The records one Federal Register page contributes when it is processed
successfully and its `results` are non-empty (`none` otherwise). -/
def pageRecords (year : ℤ) (body : JVal) : Option (List RegRecord) :=
  match pyGetD body "results" (.arr []) with
  | .error _ => none
  | .ok results =>
    if pyFalsy results then none
    else
      match pyIter results with
      | .error _ => none
      | .ok items =>
        match processItems year items with
        | .error _ => none
        | .ok recs => some recs

/-- The concatenated records of a run of good pages. -/
def goodsRecords (year : ℤ) : List JVal → Option (List RegRecord)
  | [] => some []
  | b :: bs =>
    match pageRecords year b, goodsRecords year bs with
    | some r, some rs => some (r ++ rs)
    | _, _ => none

/-- Binding an `Except` success reduces to the continuation. -/
theorem except_ok_bind {E A B : Type} (x : A) (f : A → Except E B) :
    (Except.ok x >>= f : Except E B) = f x := rfl

/-- Processing a run of good pages prepends their records to whatever the
remaining responses produce. -/
theorem extract_env_append (y : ℤ) (goods : List JVal) (res : List RegRecord)
    (tail : List (Option JVal)) (h : goodsRecords y goods = some res) :
    extract_environment_policies y (goods.map some ++ tail)
      = (extract_environment_policies y tail).map (fun more => res ++ more) := by
  induction goods generalizing res with
  | nil =>
    simp only [goodsRecords, Option.some_inj] at h
    subst h
    cases hT : extract_environment_policies y tail <;> simp [Except.map, hT]
  | cons b bs ih =>
    simp only [goodsRecords] at h
    cases hPage : pageRecords y b with
    | none => rw [hPage] at h; simp at h
    | some r =>
      rw [hPage] at h
      cases hRest : goodsRecords y bs with
      | none => rw [hRest] at h; simp at h
      | some rs =>
        rw [hRest] at h
        simp only [Option.some_inj] at h
        subst h
        unfold pageRecords at hPage
        cases hGet : pyGetD b "results" (.arr []) with
        | error e => rw [hGet] at hPage; simp at hPage
        | ok results =>
          simp only [hGet] at hPage
          by_cases hF : pyFalsy results = true
          · rw [if_pos hF] at hPage; simp at hPage
          · rw [if_neg hF] at hPage
            cases hIt : pyIter results with
            | error e => simp only [hIt] at hPage; exact Option.noConfusion hPage
            | ok items =>
              simp only [hIt] at hPage
              cases hPr : processItems y items with
              | error e => simp only [hPr] at hPage; exact Option.noConfusion hPage
              | ok recs =>
                simp only [hPr, Option.some_inj] at hPage
                subst hPage
                simp only [List.map_cons, List.cons_append, extract_environment_policies]
                rw [hGet, except_ok_bind, if_neg hF, hIt, except_ok_bind, hPr,
                  except_ok_bind]
                simp only [List.append_eq]
                rw [ih rs hRest]
                cases hT : extract_environment_policies y tail <;>
                  simp [Except.map, except_ok_bind, List.append_assoc]

/-- C5: in both adapters a page failure silently ends pagination and the
call returns exactly the records accumulated from the preceding pages
(a first-page failure yields the empty result, and later responses are
never consulted); for the JSON adapter a page whose `results` are empty
(falsy) likewise ends pagination with the accumulated records. -/
theorem pagination_truncation_spec :
    (∀ (pre : List CpdTable) (rest : List (Option CpdTable)),
      cpdFetchLoop (pre.map some ++ none :: rest) = pre) ∧
    (∀ (y : ℤ) (goods : List JVal) (res : List RegRecord) (rest : List (Option JVal)),
      goodsRecords y goods = some res →
      extract_environment_policies y (goods.map some ++ none :: rest) = .ok res) ∧
    (∀ (y : ℤ) (goods : List JVal) (res : List RegRecord) (b : JVal) (results : JVal)
        (rest : List (Option JVal)),
      goodsRecords y goods = some res →
      pyGetD b "results" (.arr []) = .ok results → pyFalsy results = true →
      extract_environment_policies y (goods.map some ++ some b :: rest) = .ok res) := by
  refine ⟨fun pre rest => ?_, fun y goods res rest h => ?_, fun y goods res b results rest h hGet hF => ?_⟩
  · induction pre with
    | nil => rfl
    | cons a t ih => simp [cpdFetchLoop, ih]
  · rw [extract_env_append y goods res (none :: rest) h]
    simp [extract_environment_policies, Except.map]
  · rw [extract_env_append y goods res (some b :: rest) h]
    simp only [extract_environment_policies]
    rw [hGet, except_ok_bind, if_pos hF]
    show Except.ok (res ++ []) = Except.ok res
    rw [List.append_nil]

/-- Witness for `pagination_truncation_spec`: one good page, then a failed
request; the call returns exactly the good page's records. -/
theorem pagination_truncation_spec_witness :
    extract_environment_policies 2020
        [some (.obj [("results", .arr [.obj []])]), none]
      = .ok [⟨.null, .null, 2020, "N/A", "US Federal Register", .null⟩] :=
  pagination_truncation_spec.2.1 2020 [.obj [("results", .arr [.obj []])]]
    [⟨.null, .null, 2020, "N/A", "US Federal Register", .null⟩] [] (by rfl)

/-- The `"name"` value of a kept agency entry, when it is a string. -/
def nameOfEntry (a : JVal) : Option String :=
  match a with
  | .obj kvs =>
    match kvs.lookup "name" with
    | some (.str s) => some s
    | _ => none
  | _ => none

/-- The names of the kept (dict-with-`"name"`) agency entries, defined when
each kept entry's name value is a string. -/
def keptNames : List JVal → Option (List String)
  | [] => some []
  | a :: rest =>
    if isNamedObj a then
      match nameOfEntry a, keptNames rest with
      | some s, some ns => some (s :: ns)
      | _, _ => none
    else keptNames rest

/-- When all kept names are strings, the comprehension's values join to
exactly those names. -/
theorem joinStrs_compNames (entries : List JVal) (ns : List String)
    (h : keptNames entries = some ns) :
    joinStrs (compNames entries) = .ok ns := by
  induction entries generalizing ns with
  | nil =>
    simp only [keptNames, Option.some_inj] at h
    subst h
    rfl
  | cons a rest ih =>
    by_cases hA : isNamedObj a = true
    · rw [keptNames, if_pos hA] at h
      cases hN : nameOfEntry a with
      | none => rw [hN] at h; simp at h
      | some s =>
        rw [hN] at h
        cases hR : keptNames rest with
        | none => rw [hR] at h; simp at h
        | some ns' =>
          rw [hR] at h
          simp only [Option.some_inj] at h
          subst h
          cases a with
          | obj kvs =>
            simp only [nameOfEntry] at hN
            cases hL : kvs.lookup "name" with
            | none => rw [hL] at hN; simp at hN
            | some v =>
              rw [hL] at hN
              cases v with
              | str s2 =>
                simp only [Option.some_inj] at hN
                subst hN
                simp only [compNames, List.filter_cons, hA, if_true, List.map_cons, hL,
                  Option.getD_some]
                have hrest : joinStrs (compNames rest) = .ok ns' := ih ns' hR
                simp only [compNames] at hrest
                simp only [joinStrs, hrest]
                rfl
              | null => simp at hN
              | bool q => simp at hN
              | num q => simp at hN
              | arr xs => simp at hN
              | obj o => simp at hN
          | null => simp [isNamedObj] at hA
          | bool v => simp [isNamedObj] at hA
          | num q => simp [isNamedObj] at hA
          | str s2 => simp [isNamedObj] at hA
          | arr xs => simp [isNamedObj] at hA
    · rw [keptNames, if_neg hA] at h
      have := ih ns h
      simpa [compNames, List.filter_cons, hA] using this

/-- The helper `keptNames` yields one name per kept entry. -/
theorem keptNames_length (entries : List JVal) (ns : List String)
    (h : keptNames entries = some ns) :
    ns.length = (entries.filter isNamedObj).length := by
  induction entries generalizing ns with
  | nil =>
    simp only [keptNames, Option.some_inj] at h
    subst h
    rfl
  | cons a rest ih =>
    by_cases hA : isNamedObj a = true
    · rw [keptNames, if_pos hA] at h
      cases hN : nameOfEntry a with
      | none => rw [hN] at h; simp at h
      | some s =>
        rw [hN] at h
        cases hR : keptNames rest with
        | none => rw [hR] at h; simp at h
        | some ns' =>
          rw [hR] at h
          simp only [Option.some_inj] at h
          subst h
          simp [List.filter_cons, hA, ih ns' hR]
    · rw [keptNames, if_neg hA] at h
      simp [List.filter_cons, hA, ih ns h]

/-- C7: the adapter's agency field keeps exactly the agency entries that
are dicts bearing a `"name"` key (one name per kept entry), joins the kept
names with `", "`, and substitutes `"N/A"` when none are kept; the item
with `agencies = [{"id": 1}, {"name": "EPA"}]` yields `agency = "EPA"`. -/
theorem agency_field_spec (y : ℤ) (kvs : List (String × JVal)) (entries : List JVal)
    (ns : List String) :
    (kvs.lookup "agencies" = some (.arr entries) → keptNames entries = some ns →
      ∃ r, processItem y (.obj kvs) = .ok r ∧
        r.agency = (if ns.isEmpty then "N/A" else String.intercalate ", " ns) ∧
        ns.length = (entries.filter isNamedObj).length) ∧
    (processItem y (.obj [("agencies",
        .arr [.obj [("id", .num 1)], .obj [("name", .str "EPA")]])])).map
      (fun r => r.agency) = .ok "EPA" := by
  constructor
  · intro hL hK
    refine ⟨⟨(kvs.lookup "title").getD .null, (kvs.lookup "type").getD .null, y,
      (if ns.isEmpty then "N/A" else String.intercalate ", " ns),
      "US Federal Register", (kvs.lookup "html_url").getD .null⟩, ?_, rfl,
      keptNames_length entries ns hK⟩
    have hnames : compNames entries =
        (entries.filter isNamedObj).map (fun a =>
          match a with
          | .obj kvs => (kvs.lookup "name").getD .null
          | _ => .null) := rfl
    simp only [processItem, pyGetD, pyGet, hL, Option.getD_some, except_ok_bind]
    simp only [pyIter, except_ok_bind]
    by_cases hE : (compNames entries).isEmpty = true
    · have hns : ns.isEmpty = true := by
        have hlen := keptNames_length entries ns hK
        have : (entries.filter isNamedObj).length = 0 := by
          have := List.isEmpty_iff.mp hE
          rw [hnames] at this
          simpa using congrArg List.length this
        simp [List.isEmpty_iff, List.length_eq_zero.mp (hlen.trans this)]
      rw [if_pos hE, if_pos hns]
      rfl
    · have hns : ¬ ns.isEmpty = true := by
        intro hcon
        have hlen := keptNames_length entries ns hK
        rw [List.isEmpty_iff.mp hcon] at hlen
        have : (entries.filter isNamedObj) = [] :=
          List.length_eq_zero.mp hlen.symm
        rw [hnames, this] at hE
        simp at hE
      rw [if_neg hE, if_neg hns]
      rw [joinStrs_compNames entries ns hK]
      rfl
  · rfl

/-- Witness for `agency_field_spec` at the scenario item. -/
theorem agency_field_spec_witness :
    ∃ r, processItem 2021 (.obj [("agencies",
        .arr [.obj [("id", .num 1)], .obj [("name", .str "EPA")]])]) = .ok r ∧
      r.agency = (if (["EPA"] : List String).isEmpty then "N/A"
        else String.intercalate ", " ["EPA"]) ∧
      (["EPA"] : List String).length
        = (([.obj [("id", .num 1)], .obj [("name", .str "EPA")]] :
            List JVal).filter isNamedObj).length :=
  (agency_field_spec 2021 [("agencies",
      .arr [.obj [("id", .num 1)], .obj [("name", .str "EPA")]])]
    [.obj [("id", .num 1)], .obj [("name", .str "EPA")]] ["EPA"]).1
    (by rfl) (by rfl)

/-- Binding an `Except` error short-circuits. -/
theorem except_error_bind {E A B : Type} (e : E) (f : A → Except E B) :
    (Except.error e >>= f : Except E B) = .error e := rfl

/-- Every successfully processed item is a dict, and its record is stamped
with the requested year, the constant source tag, and the item's
`html_url` value. -/
theorem processItem_shape (y : ℤ) (item : JVal) (r : RegRecord)
    (h : processItem y item = .ok r) :
    ∃ kvs, item = .obj kvs ∧ r.implementation_year = y ∧
      r.source = "US Federal Register" ∧
      r.source_url = (kvs.lookup "html_url").getD .null := by
  cases item with
  | obj kvs =>
    refine ⟨kvs, rfl, ?_⟩
    simp only [processItem, pyGetD, pyGet, except_ok_bind] at h
    cases hIt : pyIter ((kvs.lookup "agencies").getD (.arr [])) with
    | error e =>
      rw [hIt, except_error_bind] at h
      exact Except.noConfusion h
    | ok entries =>
      rw [hIt, except_ok_bind] at h
      by_cases hE : (compNames entries).isEmpty = true
      · rw [if_pos hE] at h
        rw [show (pure "N/A" : Except PyErr String) = Except.ok "N/A" from rfl,
          except_ok_bind] at h
        have := Except.ok.inj h
        subst this
        exact ⟨rfl, rfl, rfl⟩
      · rw [if_neg hE] at h
        cases hJ : joinStrs (compNames entries) with
        | error e =>
          rw [show ((joinStrs (compNames entries)).map (String.intercalate ", ")
              : Except PyErr String) = .error e from by rw [hJ]; rfl,
            except_error_bind] at h
          exact Except.noConfusion h
        | ok ss =>
          rw [show ((joinStrs (compNames entries)).map (String.intercalate ", ")
              : Except PyErr String) = .ok (String.intercalate ", " ss) from by
                rw [hJ]; rfl,
            except_ok_bind] at h
          have := Except.ok.inj h
          subst this
          exact ⟨rfl, rfl, rfl⟩
  | null => exact Except.noConfusion h
  | bool b => exact Except.noConfusion h
  | num q => exact Except.noConfusion h
  | str s => exact Except.noConfusion h
  | arr xs => exact Except.noConfusion h

/-- Every record of a successful item loop comes from one of the items. -/
theorem processItems_mem (y : ℤ) (items : List JVal) (recs : List RegRecord)
    (h : processItems y items = .ok recs) :
    ∀ r ∈ recs, ∃ item ∈ items, processItem y item = .ok r := by
  induction items generalizing recs with
  | nil =>
    simp only [processItems] at h
    have := Except.ok.inj h
    subst this
    simp
  | cons item rest ih =>
    simp only [processItems] at h
    cases hI : processItem y item with
    | error e => rw [hI, except_error_bind] at h; exact Except.noConfusion h
    | ok r0 =>
      rw [hI, except_ok_bind] at h
      cases hR : processItems y rest with
      | error e => rw [hR, except_error_bind] at h; exact Except.noConfusion h
      | ok rs =>
        rw [hR, except_ok_bind] at h
        have := Except.ok.inj h
        subst this
        intro r hr
        rcases List.mem_cons.mp hr with hr0 | hrs
        · exact ⟨item, by simp, hr0 ▸ hI⟩
        · obtain ⟨it, hit, hok⟩ := ih rs hR r hrs
          exact ⟨it, by simp [hit], hok⟩

/-- Every record a successful adapter call returns comes from processing
some item. -/
theorem extract_env_mem (y : ℤ) (responses : List (Option JVal))
    (recs : List RegRecord)
    (h : extract_environment_policies y responses = .ok recs) :
    ∀ r ∈ recs, ∃ item, processItem y item = .ok r := by
  induction responses generalizing recs with
  | nil =>
    simp only [extract_environment_policies] at h
    have := Except.ok.inj h
    subst this
    simp
  | cons hd tl ih =>
    cases hd with
    | none =>
      simp only [extract_environment_policies] at h
      have := Except.ok.inj h
      subst this
      simp
    | some body =>
      simp only [extract_environment_policies] at h
      cases hGet : pyGetD body "results" (.arr []) with
      | error e => rw [hGet, except_error_bind] at h; exact Except.noConfusion h
      | ok results =>
        rw [hGet, except_ok_bind] at h
        by_cases hF : pyFalsy results = true
        · rw [if_pos hF] at h
          have := Except.ok.inj h
          subst this
          simp
        · rw [if_neg hF] at h
          cases hIt : pyIter results with
          | error e => rw [hIt, except_error_bind] at h; exact Except.noConfusion h
          | ok items =>
            rw [hIt, except_ok_bind] at h
            cases hPr : processItems y items with
            | error e => rw [hPr, except_error_bind] at h; exact Except.noConfusion h
            | ok recs1 =>
              rw [hPr, except_ok_bind] at h
              cases hM : extract_environment_policies y tl with
              | error e => rw [hM, except_error_bind] at h; exact Except.noConfusion h
              | ok more =>
                rw [hM, except_ok_bind] at h
                have := Except.ok.inj h
                subst this
                intro r hr
                rcases List.mem_append.mp hr with h1 | h2
                · obtain ⟨item, _, hok⟩ := processItems_mem y items recs1 hPr r h1
                  exact ⟨item, hok⟩
                · exact ih more hM r h2

/-- C8 counterexample: the adapter stamps `source = "US Federal Register"`,
not the tag `"registry"`: a concrete run returns a record whose source
field differs from `"registry"`. -/
theorem source_tag_cex :
    extract_environment_policies 2015
        [some (.obj [("results",
          .arr [.obj [("html_url", .str "https://example.org/doc")]])]), none]
      = .ok [⟨.null, .null, 2015, "N/A", "US Federal Register",
             .str "https://example.org/doc"⟩] ∧
    "US Federal Register" ≠ "registry" := by
  exact ⟨by rfl, by decide⟩

/-- C8 (amended): every record a successful adapter call returns is stamped
with the requested year, with the constant source tag
`"US Federal Register"`, and with the `html_url` value of its originating
item. -/
theorem record_stamp_amended (y : ℤ) (responses : List (Option JVal))
    (recs : List RegRecord)
    (h : extract_environment_policies y responses = .ok recs) :
    ∀ r ∈ recs, r.implementation_year = y ∧ r.source = "US Federal Register" ∧
      ∃ kvs, processItem y (.obj kvs) = .ok r ∧
        r.source_url = (kvs.lookup "html_url").getD .null := by
  intro r hr
  obtain ⟨item, hok⟩ := extract_env_mem y responses recs h r hr
  obtain ⟨kvs, hitem, hyear, hsrc, hurl⟩ := processItem_shape y item r hok
  subst hitem
  exact ⟨hyear, hsrc, kvs, hok, hurl⟩

/-- Witness for `record_stamp_amended` at a concrete successful call. -/
theorem record_stamp_amended_witness :
    (⟨.null, .null, 2015, "N/A", "US Federal Register",
        .str "https://example.org/doc"⟩ : RegRecord).implementation_year = 2015 ∧
    (⟨.null, .null, 2015, "N/A", "US Federal Register",
        .str "https://example.org/doc"⟩ : RegRecord).source = "US Federal Register" ∧
    ∃ kvs, processItem 2015 (.obj kvs)
        = .ok (⟨.null, .null, 2015, "N/A", "US Federal Register",
            .str "https://example.org/doc"⟩ : RegRecord) ∧
      (⟨.null, .null, 2015, "N/A", "US Federal Register",
          .str "https://example.org/doc"⟩ : RegRecord).source_url
        = (kvs.lookup "html_url").getD .null :=
  record_stamp_amended 2015
    [some (.obj [("results",
      .arr [.obj [("html_url", .str "https://example.org/doc")]])]), none]
    [⟨.null, .null, 2015, "N/A", "US Federal Register",
      .str "https://example.org/doc"⟩]
    (by rfl)
    ⟨.null, .null, 2015, "N/A", "US Federal Register",
      .str "https://example.org/doc"⟩
    (by simp)

/-- A well-shaped agencies list: every kept entry's name value is a string. -/
def goodEntries (entries : List JVal) : Bool :=
  (keptNames entries).isSome

/-- A well-shaped result item: a dict whose `agencies` value (defaulting to
`[]`) is a list with well-shaped entries. -/
def goodItem : JVal → Bool
  | .obj kvs =>
    match (kvs.lookup "agencies").getD (.arr []) with
    | .arr entries => goodEntries entries
    | _ => false
  | _ => false

/-- A well-shaped response body: a dict whose `results` value (defaulting
to `[]`) is a list of well-shaped items. -/
def goodBody : JVal → Bool
  | .obj kvs =>
    match (kvs.lookup "results").getD (.arr []) with
    | .arr items => items.all goodItem
    | _ => false
  | _ => false

/-- A well-shaped item is processed without raising. -/
theorem processItem_good (y : ℤ) (item : JVal) (hg : goodItem item = true) :
    ∃ r, processItem y item = .ok r := by
  cases item with
  | obj kvs =>
    simp only [goodItem] at hg
    cases hA : (kvs.lookup "agencies").getD (.arr []) with
    | arr entries =>
      rw [hA] at hg
      simp only [goodEntries] at hg
      obtain ⟨ns, hns⟩ := Option.isSome_iff_exists.mp hg
      by_cases hE : (compNames entries).isEmpty = true
      · refine ⟨⟨(kvs.lookup "title").getD .null, (kvs.lookup "type").getD .null, y,
          "N/A", "US Federal Register", (kvs.lookup "html_url").getD .null⟩, ?_⟩
        simp only [processItem, pyGetD, pyGet, except_ok_bind, hA, pyIter,
          if_pos hE]
        rfl
      · refine ⟨⟨(kvs.lookup "title").getD .null, (kvs.lookup "type").getD .null, y,
          String.intercalate ", " ns, "US Federal Register",
          (kvs.lookup "html_url").getD .null⟩, ?_⟩
        simp only [processItem, pyGetD, pyGet, except_ok_bind, hA, pyIter,
          if_neg hE]
        rw [joinStrs_compNames entries ns hns]
        rfl
    | null => rw [hA] at hg; simp at hg
    | bool b => rw [hA] at hg; simp at hg
    | num q => rw [hA] at hg; simp at hg
    | str s => rw [hA] at hg; simp at hg
    | obj o => rw [hA] at hg; simp at hg
  | null => simp [goodItem] at hg
  | bool b => simp [goodItem] at hg
  | num q => simp [goodItem] at hg
  | str s => simp [goodItem] at hg
  | arr xs => simp [goodItem] at hg

/-- A list of well-shaped items is processed without raising. -/
theorem processItems_good (y : ℤ) (items : List JVal)
    (hg : ∀ item ∈ items, goodItem item = true) :
    ∃ rs, processItems y items = .ok rs := by
  induction items with
  | nil => exact ⟨[], rfl⟩
  | cons item rest ih =>
    obtain ⟨r0, hr0⟩ := processItem_good y item (hg item (by simp))
    obtain ⟨rs, hrs⟩ := ih (fun it hit => hg it (by simp [hit]))
    exact ⟨r0 :: rs, by simp only [processItems, hr0, except_ok_bind, hrs]; rfl⟩

/-- C9 (amended): request/decode failures are absorbed (they only end
pagination), and a call whose decoded bodies are all well-shaped never
raises; the original claim fails because a malformed item shape DOES
propagate an uncaught runtime error (see the counterexample). -/
theorem adapter_absorbs_amended (y : ℤ) (responses : List (Option JVal))
    (hgood : ∀ b, some b ∈ responses → goodBody b = true) :
    ∃ recs, extract_environment_policies y responses = .ok recs := by
  induction responses with
  | nil => exact ⟨[], rfl⟩
  | cons hd tl ih =>
    cases hd with
    | none => exact ⟨[], rfl⟩
    | some body =>
      have hb := hgood body (by simp)
      cases body with
      | obj kvs =>
        simp only [goodBody] at hb
        cases hR : (kvs.lookup "results").getD (.arr []) with
        | arr items =>
          rw [hR] at hb
          by_cases hF : pyFalsy (.arr items) = true
          · refine ⟨[], ?_⟩
            simp only [extract_environment_policies, pyGetD, except_ok_bind, hR,
              if_pos hF]
            rfl
          · obtain ⟨rs, hrs⟩ := processItems_good y items
              (fun it hit => by
                have := List.all_eq_true.mp hb
                exact this it hit)
            obtain ⟨more, hmore⟩ := ih (fun b hbm => hgood b (by simp [hbm]))
            refine ⟨rs ++ more, ?_⟩
            simp only [extract_environment_policies, pyGetD, except_ok_bind, hR,
              if_neg hF, pyIter, hrs, hmore]
            rfl
        | null => rw [hR] at hb; simp at hb
        | bool b2 => rw [hR] at hb; simp at hb
        | num q => rw [hR] at hb; simp at hb
        | str s => rw [hR] at hb; simp at hb
        | obj o => rw [hR] at hb; simp at hb
      | null => simp [goodBody] at hb
      | bool b2 => simp [goodBody] at hb
      | num q => simp [goodBody] at hb
      | str s => simp [goodBody] at hb
      | arr xs => simp [goodBody] at hb

/-- C9 counterexample: a decoded body whose item carries `agencies: null`
makes the adapter raise an uncaught `TypeError` (iterating `None`), so a
call CAN raise to its caller. -/
theorem adapter_raises_cex :
    extract_environment_policies 2020
        [some (.obj [("results", .arr [.obj [("agencies", .null)]])])]
      = .error .typeError := by rfl

/-- Witness for `adapter_absorbs_amended` at a concrete well-shaped call. -/
theorem adapter_absorbs_amended_witness :
    ∃ recs, extract_environment_policies 2020
        [some (.obj [("results",
          .arr [.obj [("agencies", .arr [.obj [("name", .str "EPA")]])]])])]
      = .ok recs :=
  adapter_absorbs_amended 2020
    [some (.obj [("results",
      .arr [.obj [("agencies", .arr [.obj [("name", .str "EPA")]])]])])]
    (by
      intro b hb
      simp only [List.mem_singleton, Option.some_inj] at hb
      subst hb
      rfl)
